import Mathlib

/-!
Shallow embedding of the poc-otel demo e-commerce microservices
(order service, cart service, product service, auth service, shared JWT
helpers), together with theorems settling the specification claims.

Conventions of the embedding:
* Go `map[string]V` stores become association lists `List (String × V)`
  with first-match lookup semantics.
* `float64` prices and totals are modelled as exact rationals `ℚ`;
  `int` quantities as `Int`; timestamps as `Nat` (seconds).
* Outbound HTTP calls to sibling services are inputs of the handler
  function (the fetched value, or a failure marker), since their results
  arrive from outside the service.
* HTTP responses are a small inductive: `ok body` or `error status msg`.
-/

inductive HttpResponse (α : Type) where
  | ok (body : α)
  | error (status : Nat) (message : String)
deriving DecidableEq

namespace OrderService

/-- `OrderItem` from backend/order-service/main.go (productId, quantity, price). -/
structure OrderItem where
  productId : String
  quantity : Int
  price : ℚ
deriving DecidableEq

/-- `Order` from backend/order-service/main.go. -/
structure Order where
  id : String
  userId : String
  items : List OrderItem
  total : ℚ
  status : String
  createdAt : Nat
deriving DecidableEq

/-- The package-level `orders = make(map[string][]Order)` store,
modelled as an association list keyed by userId. -/
abbrev OrdersStore := List (String × List Order)

/-- `orders[userID]` with the missing-key default `[]Order{}`
(as materialised by `getOrders` and `checkout`). -/
def lookupOrders (uid : String) : OrdersStore → List Order
  | [] => []
  | (u, l) :: rest => if u = uid then l else lookupOrders uid rest

/-- `orders[userID] = append(orders[userID], order)` preceded by the
create-if-absent check in `checkout` (main.go lines 143-146). -/
def storeAppend (uid : String) (o : Order) : OrdersStore → OrdersStore
  | [] => [(uid, [o])]
  | (u, l) :: rest =>
    if u = uid then (u, l ++ [o]) :: rest else (u, l) :: storeAppend uid o rest

/-- The running-total loop in `checkout`:
`for _, item := range cart.Items { total += item.Price * float64(item.Quantity) }`. -/
def cartTotal (items : List OrderItem) : ℚ :=
  items.foldl (fun t it => t + it.price * (it.quantity : ℚ)) 0

/-- Outcome of the GET to the cart service inside `checkout`: either the
decoded `cart.Items`, or any of the failure paths (request-creation error,
transport error, non-200 status, body-decode error), each of which makes
`checkout` return 500 with the given message. -/
inductive CartFetchResult where
  | ok (items : List OrderItem)
  | failure (message : String)
deriving DecidableEq

set_option linter.unusedVariables false in
/-- `checkout` (backend/order-service/main.go lines 87-162).
`newId` is the value of `uuid.New().String()` and `now` of `time.Now()`.
`clearCartOk` is whether the secondary DELETE to the cart service
succeeded; the handler only logs that outcome and never consults it. -/
def checkout (uid newId : String) (now : Nat) (fetch : CartFetchResult)
    (clearCartOk : Bool) (st : OrdersStore) : HttpResponse Order × OrdersStore :=
  match fetch with
  | .failure msg => (.error 500 msg, st)
  | .ok items =>
    let order : Order :=
      { id := newId, userId := uid, items := items, total := cartTotal items
        status := "pending", createdAt := now }
    let st' := storeAppend uid order st
    (.ok order, st')

/-- The inner loop of `updateOrderStatus` over one user's order slice:
set the status of the first order whose ID matches, returning the updated
slice and the updated order; `none` when no order matches. -/
def updateInOrders (oid ns : String) : List Order → Option (List Order × Order)
  | [] => none
  | o :: rest =>
    if o.id = oid then
      let o' := { o with status := ns }
      some (o' :: rest, o')
    else
      match updateInOrders oid ns rest with
      | some (rest', upd) => some (o :: rest', upd)
      | none => none

/-- The outer loop of `updateOrderStatus` over the `orders` map:
first matching order wins, then both loops break. -/
def updateInStore (oid ns : String) : OrdersStore → Option (OrdersStore × Order)
  | [] => none
  | (u, l) :: rest =>
    match updateInOrders oid ns l with
    | some (l', upd) => some ((u, l') :: rest, upd)
    | none =>
      match updateInStore oid ns rest with
      | some (rest', upd) => some ((u, l) :: rest', upd)
      | none => none

/-- `updateOrderStatus` (backend/order-service/main.go lines 164-199).
`body` is the decoded `{"status": ...}` payload, `none` when decoding
failed (the handler answers 400 with the decode error's text). -/
def updateOrderStatus (oid : String) (body : Option String) (st : OrdersStore) :
    HttpResponse Order × OrdersStore :=
  match body with
  | none => (.error 400 "invalid request body", st)
  | some ns =>
    match updateInStore oid ns st with
    | some (st', upd) => (.ok upd, st')
    | none => (.error 404 "Order not found", st)

/-- Pointwise form of the status update: change the status of an order
exactly when its id matches (used to state what `updateOrderStatus` does
to the store as a whole). -/
def setStatus (oid ns : String) (o : Order) : Order :=
  if o.id = oid then { o with status := ns } else o

/-- All orders held in the store, in iteration order. -/
def allOrders : OrdersStore → List Order
  | [] => []
  | (_, l) :: rest => l ++ allOrders rest

end OrderService

namespace CartService

/-- `Product` as the cart service sees it (backend/cart-service/main.go
lines 26-32). -/
structure Product where
  id : String
  name : String
  price : ℚ
  description : String
deriving DecidableEq

/-- `CartItem` (backend/cart-service/main.go lines 34-39). -/
structure CartItem where
  productId : String
  quantity : Int
  price : ℚ
  name : String
deriving DecidableEq

/-- `Cart` (backend/cart-service/main.go lines 41-44). -/
structure Cart where
  userId : String
  items : List CartItem
deriving DecidableEq

/-- The `carts = make(map[string]Cart)` store, as an association list. -/
abbrev CartsStore := List (String × Cart)

/-- `cart, exists := carts[userID]`. -/
def lookupCart (uid : String) : CartsStore → Option Cart
  | [] => none
  | (u, c) :: rest => if u = uid then some c else lookupCart uid rest

/-- `carts[userID] = cart`. -/
def setCart (uid : String) (c : Cart) : CartsStore → CartsStore
  | [] => [(uid, c)]
  | (u, c₀) :: rest => if u = uid then (u, c) :: rest else (u, c₀) :: setCart uid c rest

/-- `delete(carts, userID)`. -/
def eraseCart (uid : String) : CartsStore → CartsStore
  | [] => []
  | (u, c) :: rest => if u = uid then rest else (u, c) :: eraseCart uid rest

/-- Outcome of the GET to the product service inside `addToCart`:
transport error (500 "Failed to verify product"), non-200 status
(404 "Product not found"), body-decode error (500), or the decoded product. -/
inductive ProductFetch where
  | ok (p : Product)
  | notFound
  | fetchError
  | decodeError
deriving DecidableEq

/-- The update-or-add loop of `addToCart` (main.go lines 281-294): the
first entry with the same productId gets its quantity, price and name
overwritten and the loop breaks; otherwise the item is appended. -/
def upsertItem (item : CartItem) : List CartItem → List CartItem
  | [] => [item]
  | e :: rest =>
    if e.productId = item.productId then
      { e with quantity := item.quantity, price := item.price, name := item.name } :: rest
    else
      e :: upsertItem item rest

/-- `addToCart` (backend/cart-service/main.go lines 193-302). `body` is
the decoded request `CartItem` (`none` when decoding failed). Before the
store update, the handler overwrites the request item's price and name
with the product-service record's values (lines 264-266). -/
def addToCart (uid : String) (body : Option CartItem) (fetch : ProductFetch)
    (st : CartsStore) : HttpResponse Cart × CartsStore :=
  match body with
  | none => (.error 400 "Invalid request", st)
  | some reqItem =>
    match fetch with
    | .fetchError => (.error 500 "Failed to verify product", st)
    | .notFound => (.error 404 "Product not found", st)
    | .decodeError => (.error 500 "Failed to decode product data", st)
    | .ok product =>
      let item := { reqItem with price := product.price, name := product.name }
      let cart := (lookupCart uid st).getD { userId := uid, items := [] }
      let cart' := { cart with items := upsertItem item cart.items }
      (.ok cart', setCart uid cart' st)

/-- `removeFromCart` (backend/cart-service/main.go lines 304-345): 404
"Cart not found" when the user has no cart, otherwise drop every entry
with the given productId. -/
def removeFromCart (uid pid : String) (st : CartsStore) : HttpResponse Cart × CartsStore :=
  match lookupCart uid st with
  | none => (.error 404 "Cart not found", st)
  | some cart =>
    let cart' := { cart with items := cart.items.filter (fun it => it.productId ≠ pid) }
    (.ok cart', setCart uid cart' st)

/-- `clearCart` (backend/cart-service/main.go lines 347-370): delete the
key unconditionally and answer `{"message": "Cart cleared"}`. -/
def clearCart (uid : String) (st : CartsStore) : HttpResponse String × CartsStore :=
  (.ok "Cart cleared", eraseCart uid st)

/-- The per-item enrichment loop of `getCart` (main.go lines 166-185):
price and name are refreshed from the product service when the fetch and
decode succeed, and left as stored otherwise. `fetch` maps a productId to
the fetched product, `none` standing for any failure. -/
def enrichItem (fetch : String → Option Product) (it : CartItem) : CartItem :=
  match fetch it.productId with
  | some p => { it with price := p.price, name := p.name }
  | none => it

/-- `getCart` (backend/cart-service/main.go lines 148-191): a missing
cart is answered as the empty cart for that user with status 200. -/
def getCart (uid : String) (fetch : String → Option Product) (st : CartsStore) :
    HttpResponse Cart × CartsStore :=
  match lookupCart uid st with
  | none => (.ok { userId := uid, items := [] }, st)
  | some cart => (.ok { cart with items := cart.items.map (enrichItem fetch) }, st)

/-- The productIds of a list of cart items. -/
def itemKeys (l : List CartItem) : List String := l.map CartItem.productId

/-- Stores reachable from the empty `carts` map through the four
handlers. -/
inductive Reachable : CartsStore → Prop
  | init : Reachable []
  | add (uid : String) (body : Option CartItem) (fetch : ProductFetch) {st : CartsStore} :
      Reachable st → Reachable (addToCart uid body fetch st).2
  | remove (uid pid : String) {st : CartsStore} :
      Reachable st → Reachable (removeFromCart uid pid st).2
  | clear (uid : String) {st : CartsStore} :
      Reachable st → Reachable (clearCart uid st).2
  | get (uid : String) (fetch : String → Option Product) {st : CartsStore} :
      Reachable st → Reachable (getCart uid fetch st).2

end CartService

namespace CartJs

/-- A stored cart item of the file-backed JS cart service
(backend/cart-service/server.js): only productId and quantity persist. -/
structure JsCartItem where
  productId : String
  quantity : Int
deriving DecidableEq

/-- A stored cart of the JS cart service. -/
structure JsCart where
  userId : String
  items : List JsCartItem
deriving DecidableEq

/-- The add-or-replace step of the JS `addToCart` (server.js lines
96-101): the first entry with the productId gets its quantity replaced,
otherwise `{productId, quantity}` is pushed. -/
def jsUpsert (pid : String) (qty : Int) : List JsCartItem → List JsCartItem
  | [] => [{ productId := pid, quantity := qty }]
  | e :: rest =>
    if e.productId = pid then { productId := pid, quantity := qty } :: rest
    else e :: jsUpsert pid qty rest

end CartJs

namespace ProductGo

/-- `Product` of the Go product service (the second file concatenated in
backend/cart-service/main.go, lines 391-397): ID, Name, Description,
Price, Category. -/
structure Product where
  id : String
  name : String
  description : String
  price : ℚ
  category : String
deriving DecidableEq

/-- The static `products` slice (lines 399-421). -/
def products : List Product :=
  [ { id := "1", name := "Gaming Laptop", description := "High-performance gaming laptop",
      price := 1299.99, category := "Electronics" },
    { id := "2", name := "Smartphone", description := "Latest model smartphone",
      price := 799.99, category := "Electronics" },
    { id := "3", name := "Headphones", description := "Wireless noise-canceling headphones",
      price := 199.99, category := "Electronics" } ]

/-- `healthCheck` (lines 496-501), as a transformer of the product state
so that its (absent) effect on the collection is expressible. -/
def healthCheck (ps : List Product) : HttpResponse (List (String × String)) × List Product :=
  (.ok [("status", "healthy"), ("service", "product-service")], ps)

/-- `getProducts` (lines 503-509). -/
def getProducts (ps : List Product) : HttpResponse (List Product) × List Product :=
  (.ok ps, ps)

/-- `getProduct` (lines 511-530): first product whose ID matches, else
404 "Product not found". -/
def getProduct (pid : String) (ps : List Product) : HttpResponse Product × List Product :=
  match ps.find? (fun p => p.id = pid) with
  | some p => (.ok p, ps)
  | none => (.error 404 "Product not found", ps)

/-- `getProductsByCategory` (lines 532-554): all products of the
category, 404 when there are none. -/
def getProductsByCategory (cat : String) (ps : List Product) :
    HttpResponse (List Product) × List Product :=
  let categoryProducts := ps.filter (fun p => p.category = cat)
  if categoryProducts.isEmpty then (.error 404 "No products found in this category", ps)
  else (.ok categoryProducts, ps)

end ProductGo

namespace ProductJs

/-- The flat-file database db.json shared by the JS services: a products
list and a carts list. -/
structure DB where
  products : List ProductGo.Product
  carts : List CartJs.JsCart
deriving DecidableEq

/-- GET /api/products (backend/product-service/server.js lines 56-68). -/
def getAllProducts (db : DB) : HttpResponse (List ProductGo.Product) × DB :=
  (.ok db.products, db)

/-- GET /api/products/:id (server.js lines 71-93). -/
def getProductById (pid : String) (db : DB) : HttpResponse ProductGo.Product × DB :=
  match db.products.find? (fun p => p.id = pid) with
  | some p => (.ok p, db)
  | none => (.error 404 "Product not found", db)

/-- GET /api/products/:id/availability (server.js lines 96-120);
`isAvailable` stands for the `Math.random() > 0.3` draw. -/
def checkAvailability (pid : String) (isAvailable : Bool) (db : DB) :
    HttpResponse Bool × DB :=
  match db.products.find? (fun p => p.id = pid) with
  | some _ => (.ok isAvailable, db)
  | none => (.error 404 "Product not found", db)

/-- GET /api/internal/products/:id/verify (server.js lines 123-145); the
404 body is the JSON object with exists set to false. -/
def verifyProduct (pid : String) (db : DB) : HttpResponse (Bool × ProductGo.Product) × DB :=
  match db.products.find? (fun p => p.id = pid) with
  | some p => (.ok (true, p), db)
  | none => (.error 404 "exists false", db)

end ProductJs

namespace SharedJwt

/-- The JWT claims set (unnamed/part_002 lines 12-17): UserID, Username,
SessionID plus registered expiry and issue times (seconds). -/
structure Claims where
  userID : String
  username : String
  sessionID : String
  expiresAt : Nat
  issuedAt : Nat
deriving DecidableEq

/-- The signing secret `jwtSecret = []byte("your-secret-key")`. -/
def jwtSecret : String := "your-secret-key"

/-- Abstract HMAC-SHA256 signing (the jwt library is external to the
repository): a signature is modelled as binding the key to the encoded
claims, which captures exactly the library's verify-of-sign contract;
collisions and forgeries are outside the model. -/
def hs256Sign (secret : String) (c : Claims) : String × Claims := (secret, c)

/-- A signed JWT: payload plus signature. -/
structure SignedToken where
  claims : Claims
  sig : String × Claims
deriving DecidableEq

/-- `GenerateToken` (unnamed/part_002 lines 18-33): UserID and SessionID
are both set to the session id, expiry is 24 hours after issue. -/
def GenerateToken (username sessionID : String) (now : Nat) : SignedToken :=
  let claims : Claims :=
    { userID := sessionID, username := username, sessionID := sessionID,
      expiresAt := now + 24 * 60 * 60, issuedAt := now }
  { claims := claims, sig := hs256Sign jwtSecret claims }

/-- `ValidateToken` (unnamed/part_002 lines 35-50): parsing with the
shared secret rejects a bad signature and an expired token, and returns
the claims otherwise. -/
def ValidateToken (tok : SignedToken) (now : Nat) : Option Claims :=
  if tok.sig = hs256Sign jwtSecret tok.claims ∧ now < tok.claims.expiresAt then
    some tok.claims
  else
    none

end SharedJwt

namespace AuthService

/-- `LoginRequest` (bak/backend-bak/auth-service/main.go lines 23-26). -/
structure LoginRequest where
  username : String
  password : String
deriving DecidableEq

/-- The 200 body of `handleLogin` (lines 61-65): token, sessionId,
username — the created session. -/
structure LoginResponse where
  token : SharedJwt.SignedToken
  sessionId : String
  username : String
deriving DecidableEq

/-- `handleLogin` (bak/backend-bak/auth-service/main.go lines 39-69):
400 when the body does not decode, 401 unless the credentials are
admin/admin, otherwise a fresh session id (`sessionId`, the value of
`uuid.New().String()`) and a JWT for it. -/
def handleLogin (body : Option LoginRequest) (sessionId : String) (now : Nat) :
    HttpResponse LoginResponse :=
  match body with
  | none => .error 400 "Invalid request body"
  | some req =>
    if req.username = "admin" ∧ req.password = "admin" then
      .ok { token := SharedJwt.GenerateToken req.username sessionId now,
            sessionId := sessionId, username := req.username }
    else
      .error 401 "Invalid credentials"

end AuthService

namespace Locking

/-- The two shared in-memory stores of the Go services. -/
inductive Store where
  | carts
  | orders
deriving DecidableEq

/-- One handler access to a shared store, with whether that access runs
under the owning service's mutex. -/
structure StoreAccess where
  service : String
  handler : String
  store : Store
  mutexGuarded : Bool
deriving DecidableEq

/-- Transliteration of every handler access to the `carts` and `orders`
maps. The cart service wraps each access in `mu.RLock`/`mu.Lock`
(backend/cart-service/main.go lines 156-158, 272-297, 323-340, 363-365);
the order service declares no mutex and accesses `orders` bare
(backend/order-service/main.go lines 79, 143-146, 182-186). -/
def storeAccesses : List StoreAccess :=
  [ { service := "cart-service", handler := "getCart", store := .carts, mutexGuarded := true },
    { service := "cart-service", handler := "addToCart", store := .carts, mutexGuarded := true },
    { service := "cart-service", handler := "removeFromCart", store := .carts,
      mutexGuarded := true },
    { service := "cart-service", handler := "clearCart", store := .carts, mutexGuarded := true },
    { service := "order-service", handler := "getOrders", store := .orders,
      mutexGuarded := false },
    { service := "order-service", handler := "checkout", store := .orders,
      mutexGuarded := false },
    { service := "order-service", handler := "updateOrderStatus", store := .orders,
      mutexGuarded := false } ]

end Locking

-- ======================================================================
-- Theorems
-- ======================================================================

namespace OrderService

/-- Appending an order for a user extends exactly that user's list. -/
theorem lookupOrders_storeAppend_self (uid : String) (o : Order) (st : OrdersStore) :
    lookupOrders uid (storeAppend uid o st) = lookupOrders uid st ++ [o] := by
  induction st with
  | nil => simp [storeAppend, lookupOrders]
  | cons p rest ih =>
    obtain ⟨u, l⟩ := p
    by_cases h : u = uid
    · simp [storeAppend, lookupOrders, h]
    · simp [storeAppend, lookupOrders, h, ih]

/-- Appending an order for one user leaves every other user's list intact. -/
theorem lookupOrders_storeAppend_other (uid u : String) (o : Order) (st : OrdersStore)
    (hne : u ≠ uid) : lookupOrders u (storeAppend uid o st) = lookupOrders u st := by
  induction st with
  | nil =>
    have huid : ¬ uid = u := fun h => hne h.symm
    simp [storeAppend, lookupOrders, huid]
  | cons p rest ih =>
    obtain ⟨u₀, l⟩ := p
    by_cases h : u₀ = uid
    · have hu : ¬ u₀ = u := fun h' => hne (h' ▸ h)
      have huid : ¬ uid = u := fun h' => hne h'.symm
      simp [storeAppend, lookupOrders, h, hu, huid]
    · by_cases h' : u₀ = u
      · simp [storeAppend, lookupOrders, h, h', hne]
      · simp [storeAppend, lookupOrders, h, h', ih]

/-- The left fold computing the order total agrees with the sum of
price times quantity over the items. -/
theorem cartTotal_eq_sum (items : List OrderItem) :
    cartTotal items = (items.map (fun it => it.price * (it.quantity : ℚ))).sum := by
  have aux : ∀ (l : List OrderItem) (a : ℚ),
      l.foldl (fun t it => t + it.price * (it.quantity : ℚ)) a
        = a + (l.map (fun it => it.price * (it.quantity : ℚ))).sum := by
    intro l
    induction l with
    | nil => intro a; simp
    | cons x xs ih =>
      intro a
      simp [List.foldl_cons, ih, add_assoc]
  simpa [cartTotal] using aux items 0

/-- C1: a checkout request whose cart fetch succeeded creates exactly one
new order — items are the fetched cart snapshot, total is the sum of price
times quantity over those items, status is "pending", and it carries the
freshly generated id and creation time — appends it to that user's order
list, and leaves all previously stored orders (of this and every other
user) unchanged. -/
theorem checkout_creates_one_pending_order (uid newId : String) (now : Nat)
    (items : List OrderItem) (clearCartOk : Bool) (st : OrdersStore) :
    ∃ o : Order,
      checkout uid newId now (.ok items) clearCartOk st = (.ok o, storeAppend uid o st)
      ∧ o.id = newId ∧ o.userId = uid ∧ o.items = items
      ∧ o.total = (items.map (fun it => it.price * (it.quantity : ℚ))).sum
      ∧ o.status = "pending" ∧ o.createdAt = now
      ∧ lookupOrders uid (storeAppend uid o st) = lookupOrders uid st ++ [o]
      ∧ ∀ u, u ≠ uid → lookupOrders u (storeAppend uid o st) = lookupOrders u st := by
  refine ⟨{ id := newId, userId := uid, items := items, total := cartTotal items,
            status := "pending", createdAt := now },
    rfl, rfl, rfl, rfl, cartTotal_eq_sum items, rfl, rfl,
    lookupOrders_storeAppend_self uid _ st,
    fun u hu => lookupOrders_storeAppend_other uid u _ st hu⟩

/-- Witness for C1 at a concrete input. -/
theorem checkout_creates_one_pending_order_witness :
    ∃ o : Order,
      checkout "alice" "id-1" 5 (.ok [⟨"1", 2, 10⟩]) true [] = (.ok o, storeAppend "alice" o [])
      ∧ o.id = "id-1" ∧ o.userId = "alice" ∧ o.items = [⟨"1", 2, 10⟩]
      ∧ o.total = ([⟨"1", 2, 10⟩].map (fun it : OrderItem => it.price * (it.quantity : ℚ))).sum
      ∧ o.status = "pending" ∧ o.createdAt = 5
      ∧ lookupOrders "alice" (storeAppend "alice" o []) = lookupOrders "alice" [] ++ [o]
      ∧ ∀ u, u ≠ "alice" → lookupOrders u (storeAppend "alice" o []) = lookupOrders u [] :=
  checkout_creates_one_pending_order "alice" "id-1" 5 [⟨"1", 2, 10⟩] true []

/-- C2: the cart-clearing DELETE issued after checkout is best-effort:
the handler's response and the stored orders are identical whether that
call succeeds or fails, and on success of the cart fetch the order is
stored and returned in either case — no rollback or compensation. -/
theorem checkout_clear_cart_best_effort (uid newId : String) (now : Nat)
    (fetch : CartFetchResult) (st : OrdersStore) :
    (∀ c₁ c₂ : Bool, checkout uid newId now fetch c₁ st = checkout uid newId now fetch c₂ st)
    ∧ ∀ (items : List OrderItem) (clearCartOk : Bool),
        checkout uid newId now (.ok items) clearCartOk st
          = (.ok { id := newId, userId := uid, items := items, total := cartTotal items,
                   status := "pending", createdAt := now },
             storeAppend uid
               { id := newId, userId := uid, items := items, total := cartTotal items,
                 status := "pending", createdAt := now } st) :=
  ⟨fun _ _ => rfl, fun _ _ => rfl⟩

/-- When no order in a slice has the requested id, the inner update loop
finds nothing. -/
theorem updateInOrders_eq_none (oid ns : String) (l : List Order)
    (h : ∀ o ∈ l, o.id ≠ oid) : updateInOrders oid ns l = none := by
  induction l with
  | nil => rfl
  | cons o rest ih =>
    have ho : ¬ o.id = oid := h o (by simp)
    simp [updateInOrders, ho, ih (fun o' ho' => h o' (by simp [ho']))]

/-- `setStatus` is the identity on a slice free of the requested id. -/
theorem map_setStatus_id (oid ns : String) (l : List Order)
    (h : ∀ o ∈ l, o.id ≠ oid) : l.map (setStatus oid ns) = l := by
  induction l with
  | nil => rfl
  | cons o rest ih =>
    have ho : ¬ o.id = oid := h o (by simp)
    simp [setStatus, ho, ih (fun o' ho' => h o' (by simp [ho']))]

/-- With distinct ids, the inner update loop rewrites the slice pointwise
and returns the updated order. -/
theorem updateInOrders_mem (oid ns : String) (l : List Order) (o : Order)
    (hnd : (l.map Order.id).Nodup) (ho : o ∈ l) (hid : o.id = oid) :
    updateInOrders oid ns l = some (l.map (setStatus oid ns), { o with status := ns }) := by
  induction l with
  | nil => cases ho
  | cons a rest ih =>
    rw [List.map_cons, List.nodup_cons] at hnd
    obtain ⟨hhead, htail⟩ := hnd
    rcases List.mem_cons.mp ho with h | h
    · subst h
      have hrest : ∀ o' ∈ rest, o'.id ≠ oid := by
        intro o' ho' heq
        exact hhead (by rw [hid, ← heq]; exact List.mem_map_of_mem Order.id ho')
      simp [updateInOrders, hid, setStatus, map_setStatus_id oid ns rest hrest]
    · have ha : ¬ a.id = oid := by
        intro heq
        exact hhead (by rw [heq, ← hid]; exact List.mem_map_of_mem Order.id h)
      simp [updateInOrders, ha, ih htail h, setStatus]

/-- When no stored order has the requested id, the outer update loop
finds nothing. -/
theorem updateInStore_eq_none (oid ns : String) (st : OrdersStore)
    (h : ∀ o ∈ allOrders st, o.id ≠ oid) : updateInStore oid ns st = none := by
  induction st with
  | nil => rfl
  | cons p rest ih =>
    obtain ⟨u, l⟩ := p
    have h1 : ∀ o ∈ l, o.id ≠ oid := fun o ho => h o (by simp [allOrders, ho])
    have h2 : ∀ o ∈ allOrders rest, o.id ≠ oid := fun o ho => h o (by simp [allOrders, ho])
    simp [updateInStore, updateInOrders_eq_none oid ns l h1, ih h2]

/-- Pointwise rewriting is the identity on a store free of the id. -/
theorem mapStore_setStatus_id (oid ns : String) (st : OrdersStore)
    (h : ∀ o ∈ allOrders st, o.id ≠ oid) :
    st.map (fun p => (p.1, p.2.map (setStatus oid ns))) = st := by
  induction st with
  | nil => rfl
  | cons p rest ih =>
    obtain ⟨u, l⟩ := p
    have h1 : ∀ o ∈ l, o.id ≠ oid := fun o ho => h o (by simp [allOrders, ho])
    have h2 : ∀ o ∈ allOrders rest, o.id ≠ oid := fun o ho => h o (by simp [allOrders, ho])
    simp [map_setStatus_id oid ns l h1, ih h2]

/-- With globally distinct ids, the outer update loop rewrites the store
pointwise and returns the updated order. -/
theorem updateInStore_mem (oid ns : String) (st : OrdersStore) (o : Order)
    (hnd : ((allOrders st).map Order.id).Nodup) (ho : o ∈ allOrders st) (hid : o.id = oid) :
    updateInStore oid ns st
      = some (st.map (fun p => (p.1, p.2.map (setStatus oid ns))), { o with status := ns }) := by
  induction st with
  | nil => cases ho
  | cons p rest ih =>
    obtain ⟨u, l⟩ := p
    have hall : allOrders ((u, l) :: rest) = l ++ allOrders rest := rfl
    rw [hall] at hnd ho
    rw [List.map_append, List.nodup_append] at hnd
    obtain ⟨hnd1, hnd2, hdisj⟩ := hnd
    rcases List.mem_append.mp ho with h | h
    · have hrest : ∀ o' ∈ allOrders rest, o'.id ≠ oid := by
        intro o' ho' heq
        exact hdisj (List.mem_map_of_mem Order.id h)
          (by rw [hid, ← heq]; exact List.mem_map_of_mem Order.id ho')
      simp [updateInStore, updateInOrders_mem oid ns l o hnd1 h hid,
            mapStore_setStatus_id oid ns rest hrest]
    · have hl : ∀ o' ∈ l, o'.id ≠ oid := by
        intro o' ho' heq
        exact hdisj (List.mem_map_of_mem Order.id ho')
          (by rw [heq, ← hid]; exact List.mem_map_of_mem Order.id h)
      simp [updateInStore, updateInOrders_eq_none oid ns l hl, ih hnd2 h,
            map_setStatus_id oid ns l hl]

/-- C3: given globally distinct order ids, an update-status request for a
stored order's id rewrites exactly that order's status (ids, userIds,
items, totals, creation times and every order with a different id are
untouched) and echoes the updated order; for an id matching no stored
order it answers 404 "Order not found" and leaves the store unchanged. -/
theorem updateOrderStatus_spec (oid ns : String) (st : OrdersStore)
    (hnd : ((allOrders st).map Order.id).Nodup) :
    (∀ o ∈ allOrders st, o.id = oid →
       updateOrderStatus oid (some ns) st
         = (.ok { o with status := ns },
            st.map (fun p => (p.1, p.2.map (setStatus oid ns)))))
    ∧ ((∀ o ∈ allOrders st, o.id ≠ oid) →
       updateOrderStatus oid (some ns) st = (.error 404 "Order not found", st))
    ∧ (∀ o, (setStatus oid ns o).id = o.id ∧ (setStatus oid ns o).userId = o.userId
         ∧ (setStatus oid ns o).items = o.items ∧ (setStatus oid ns o).total = o.total
         ∧ (setStatus oid ns o).createdAt = o.createdAt)
    ∧ (∀ o, o.id ≠ oid → setStatus oid ns o = o) := by
  refine ⟨?_, ?_, ?_, ?_⟩
  · intro o ho hid
    simp [updateOrderStatus, updateInStore_mem oid ns st o hnd ho hid]
  · intro h
    simp [updateOrderStatus, updateInStore_eq_none oid ns st h]
  · intro o
    by_cases h : o.id = oid <;> simp [setStatus, h]
  · intro o h
    simp [setStatus, h]

/-- Witness for C3 at a concrete one-order store. -/
theorem updateOrderStatus_spec_witness :
    updateOrderStatus "o1" (some "shipped")
        [("alice", [{ id := "o1", userId := "alice", items := [], total := 0,
                      status := "pending", createdAt := 3 }])]
      = (.ok { id := "o1", userId := "alice", items := [], total := 0,
               status := "shipped", createdAt := 3 },
         [("alice", [{ id := "o1", userId := "alice", items := [], total := 0,
                       status := "shipped", createdAt := 3 }])]) := by
  have h := (updateOrderStatus_spec "o1" "shipped"
      [("alice", [{ id := "o1", userId := "alice", items := [], total := 0,
                    status := "pending", createdAt := 3 }])]
      (by simp [allOrders])).1
      { id := "o1", userId := "alice", items := [], total := 0,
        status := "pending", createdAt := 3 }
      (by simp [allOrders]) rfl
  simpa [setStatus] using h

end OrderService

namespace CartService

/-- Deleting a key that is absent leaves the carts store unchanged. -/
theorem eraseCart_of_lookup_none (uid : String) (st : CartsStore)
    (h : lookupCart uid st = none) : eraseCart uid st = st := by
  induction st with
  | nil => rfl
  | cons p rest ih =>
    obtain ⟨u, c⟩ := p
    by_cases hu : u = uid
    · simp [lookupCart, hu] at h
    · simp [lookupCart, hu] at h
      simp [eraseCart, hu, ih h]

/-- C9: for a user with no stored cart, `getCart` answers 200 with the
empty cart for that user, `removeFromCart` answers 404 "Cart not found"
and changes nothing, while `clearCart` answers 200 "Cart cleared"
unconditionally (and, the cart being absent, also changes nothing). -/
theorem missing_cart_asymmetry (uid pid : String) (fetch : String → Option Product)
    (st : CartsStore) (h : lookupCart uid st = none) :
    getCart uid fetch st = (.ok { userId := uid, items := [] }, st)
    ∧ removeFromCart uid pid st = (.error 404 "Cart not found", st)
    ∧ (∀ st' : CartsStore, (clearCart uid st').1 = .ok "Cart cleared")
    ∧ clearCart uid st = (.ok "Cart cleared", st) := by
  refine ⟨?_, ?_, fun _ => rfl, ?_⟩
  · simp [getCart, h]
  · simp [removeFromCart, h]
  · simp [clearCart, eraseCart_of_lookup_none uid st h]

/-- Witness for C9 on the empty store. -/
theorem missing_cart_asymmetry_witness :
    getCart "u" (fun _ => none) [] = (.ok { userId := "u", items := [] }, [])
    ∧ removeFromCart "u" "p" [] = (.error 404 "Cart not found", [])
    ∧ (∀ st' : CartsStore, (clearCart "u" st').1 = .ok "Cart cleared")
    ∧ clearCart "u" [] = (.ok "Cart cleared", []) :=
  missing_cart_asymmetry "u" "p" (fun _ => none) [] rfl

/-- C8 counterexample: the add-to-cart handler does not store the price
and name sent in the request: with an existing entry for product "1", a
request carrying price 999 and name "from-request" results in the entry
holding the product service's price 1299.99 and name "Gaming Laptop". -/
theorem addToCart_request_values_counterexample :
    (addToCart "u"
        (some { productId := "1", quantity := 3, price := 999, name := "from-request" })
        (.ok { id := "1", name := "Gaming Laptop", price := 1299.99, description := "d" })
        [("u", { userId := "u",
                 items := [{ productId := "1", quantity := 1, price := 5, name := "old" }] })]).2
      = [("u", { userId := "u",
                 items := [{ productId := "1", quantity := 3, price := 1299.99,
                             name := "Gaming Laptop" }] })]
    ∧ (1299.99 : ℚ) ≠ 999 ∧ "Gaming Laptop" ≠ "from-request" := by
  refine ⟨rfl, by norm_num, by decide⟩

/-- Appending case of the upsert loop: a fresh productId goes to the end. -/
theorem upsertItem_not_mem (item : CartItem) (l : List CartItem)
    (h : item.productId ∉ itemKeys l) : upsertItem item l = l ++ [item] := by
  induction l with
  | nil => rfl
  | cons e rest ih =>
    have he : ¬ e.productId = item.productId := by
      intro heq
      exact h (by simp [itemKeys, ← heq])
    have h' : item.productId ∉ itemKeys rest := fun hm => h (by simp [itemKeys] at hm ⊢; right; exact hm)
    simp [upsertItem, he, ih h']

/-- A list of items none of which carry the productId is untouched by the
pointwise replacement. -/
theorem map_replace_id (item : CartItem) (l : List CartItem)
    (h : ∀ e ∈ l, e.productId ≠ item.productId) :
    l.map (fun e => if e.productId = item.productId then
        { e with quantity := item.quantity, price := item.price, name := item.name }
      else e) = l := by
  induction l with
  | nil => rfl
  | cons e rest ih =>
    have he : ¬ e.productId = item.productId := h e (by simp)
    simp [he, ih (fun e' he' => h e' (by simp [he']))]

/-- Replacing case of the upsert loop: with distinct keys and the key
present, the loop acts as the pointwise replacement. -/
theorem upsertItem_mem_nodup (item : CartItem) (l : List CartItem)
    (hnd : (itemKeys l).Nodup) (hm : item.productId ∈ itemKeys l) :
    upsertItem item l = l.map (fun e => if e.productId = item.productId then
        { e with quantity := item.quantity, price := item.price, name := item.name }
      else e) := by
  induction l with
  | nil => cases hm
  | cons e rest ih =>
    rw [show itemKeys (e :: rest) = e.productId :: itemKeys rest from rfl] at hnd hm
    rw [List.nodup_cons] at hnd
    obtain ⟨hhead, htail⟩ := hnd
    by_cases he : e.productId = item.productId
    · have hrest : ∀ e' ∈ rest, e'.productId ≠ item.productId := by
        intro e' he' heq
        exact hhead (by rw [he, ← heq]; exact List.mem_map_of_mem CartItem.productId he')
      simp [upsertItem, he, map_replace_id item rest hrest]
    · have hm' : item.productId ∈ itemKeys rest := by
        rcases List.mem_cons.mp hm with h | h
        · exact absurd h.symm he
        · exact h
      simp [upsertItem, he, ih htail hm']

/-- The keys after an upsert: unchanged when the key was present,
extended by it at the end otherwise. -/
theorem itemKeys_upsertItem (item : CartItem) (l : List CartItem) :
    itemKeys (upsertItem item l)
      = if item.productId ∈ itemKeys l then itemKeys l else itemKeys l ++ [item.productId] := by
  induction l with
  | nil => simp [upsertItem, itemKeys]
  | cons e rest ih =>
    have hkeys : itemKeys (e :: rest) = e.productId :: itemKeys rest := rfl
    by_cases he : e.productId = item.productId
    · have hmem : item.productId ∈ itemKeys (e :: rest) := by
        rw [hkeys, ← he]
        exact List.mem_cons_self _ _
      rw [if_pos hmem]
      simp [upsertItem, he, itemKeys]
    · have hne : item.productId ≠ e.productId := fun h => he h.symm
      by_cases hm : item.productId ∈ itemKeys rest
      · have hmem : item.productId ∈ itemKeys (e :: rest) := by
          rw [hkeys]
          exact List.mem_cons_of_mem _ hm
        rw [if_pos hmem]
        have hih := ih
        rw [if_pos hm] at hih
        simp only [upsertItem, if_neg he, itemKeys, List.map_cons]
        simpa [itemKeys] using hih
      · have hmem : item.productId ∉ itemKeys (e :: rest) := by
          rw [hkeys]
          intro hc
          rcases List.mem_cons.mp hc with h | h
          · exact hne h
          · exact hm h
        rw [if_neg hmem]
        have hih := ih
        rw [if_neg hm] at hih
        simp only [upsertItem, if_neg he, itemKeys, List.map_cons]
        simpa [itemKeys] using hih

/-- An upsert preserves distinctness of the productIds. -/
theorem upsertItem_nodup (item : CartItem) (l : List CartItem)
    (hnd : (itemKeys l).Nodup) : (itemKeys (upsertItem item l)).Nodup := by
  rw [itemKeys_upsertItem]
  by_cases hm : item.productId ∈ itemKeys l
  · simpa [hm] using hnd
  · simpa [hm] using List.Nodup.append hnd (List.nodup_singleton _) (by simpa using hm)

/-- Every pair of the store after `setCart` is the new pair or an old one. -/
theorem mem_setCart (uid : String) (c : Cart) (st : CartsStore) (p : String × Cart)
    (hp : p ∈ setCart uid c st) : p = (uid, c) ∨ p ∈ st := by
  induction st with
  | nil => simpa [setCart] using hp
  | cons q rest ih =>
    obtain ⟨u, c₀⟩ := q
    by_cases hu : u = uid
    · simp [setCart, hu] at hp
      rcases hp with h | h
      · left; simp [h, hu]
      · right; simp [h]
    · simp [setCart, hu] at hp
      rcases hp with h | h
      · right; simp [h]
      · rcases ih h with h' | h'
        · left; exact h'
        · right; simp [h']

/-- Every pair surviving `eraseCart` was in the store. -/
theorem mem_eraseCart (uid : String) (st : CartsStore) (p : String × Cart)
    (hp : p ∈ eraseCart uid st) : p ∈ st := by
  induction st with
  | nil => simp [eraseCart] at hp
  | cons q rest ih =>
    obtain ⟨u, c₀⟩ := q
    by_cases hu : u = uid
    · simp [eraseCart, hu] at hp
      simp [hp]
    · simp [eraseCart, hu] at hp
      rcases hp with h | h
      · simp [h]
      · simp [ih h]

/-- A successful lookup exhibits a stored pair. -/
theorem lookupCart_mem (uid : String) (st : CartsStore) (c : Cart)
    (h : lookupCart uid st = some c) : (uid, c) ∈ st := by
  induction st with
  | nil => simp [lookupCart] at h
  | cons q rest ih =>
    obtain ⟨u, c₀⟩ := q
    by_cases hu : u = uid
    · simp [lookupCart, hu] at h
      simp [hu, h]
    · simp [lookupCart, hu] at h
      simp [ih h]

/-- `getCart` never writes the store. -/
theorem getCart_snd (uid : String) (fetch : String → Option Product) (st : CartsStore) :
    (getCart uid fetch st).2 = st := by
  unfold getCart
  cases lookupCart uid st <;> rfl

/-- Every store reachable through the cart handlers keeps at most one
entry per productId in every cart. -/
theorem reachable_itemKeys_nodup (st : CartsStore) (hst : Reachable st) :
    ∀ p ∈ st, (itemKeys p.2.items).Nodup := by
  induction hst with
  | init => intro p hp; cases hp
  | add uid body fetch hst ih =>
    intro p hp
    match body with
    | none => exact ih p hp
    | some reqItem =>
      match fetch with
      | .fetchError => exact ih p hp
      | .notFound => exact ih p hp
      | .decodeError => exact ih p hp
      | .ok product =>
        simp only [addToCart] at hp
        rcases mem_setCart _ _ _ p hp with h | h
        · subst h
          rcases hc : lookupCart uid _ with _ | cart
          · simp only [hc, Option.getD_none]
            exact upsertItem_nodup _ _ (by simp [itemKeys])
          · simp only [hc, Option.getD_some]
            exact upsertItem_nodup _ _ (ih (uid, cart) (lookupCart_mem uid _ cart hc))
        · exact ih p h
  | remove uid pid hst ih =>
    intro p hp
    simp only [removeFromCart] at hp
    rcases hc : lookupCart uid _ with _ | cart
    · rw [hc] at hp
      exact ih p hp
    · rw [hc] at hp
      rcases mem_setCart _ _ _ p hp with h | h
      · subst h
        have hnd := ih (uid, cart) (lookupCart_mem uid _ cart hc)
        exact List.Nodup.sublist (List.Sublist.map _ (List.filter_sublist _)) hnd
      · exact ih p h
  | clear uid hst ih =>
    intro p hp
    exact ih p (mem_eraseCart uid _ p hp)
  | get uid fetch hst ih =>
    intro p hp
    rw [getCart_snd] at hp
    exact ih p hp

/-- JS variant: items free of the productId are untouched by the
pointwise replacement. -/
theorem jsMap_replace_id (pid : String) (qty : Int) (l : List CartJs.JsCartItem)
    (h : ∀ e ∈ l, e.productId ≠ pid) :
    l.map (fun e => if e.productId = pid then
        ({ productId := pid, quantity := qty } : CartJs.JsCartItem)
      else e) = l := by
  induction l with
  | nil => rfl
  | cons e rest ih =>
    have he : ¬ e.productId = pid := h e (by simp)
    simp [he, ih (fun e' he' => h e' (by simp [he']))]

/-- JS variant of the replacing case: with distinct keys and the key
present, the add-or-replace step acts pointwise. -/
theorem jsUpsert_mem_nodup (pid : String) (qty : Int) (l : List CartJs.JsCartItem)
    (hnd : (l.map CartJs.JsCartItem.productId).Nodup)
    (hm : pid ∈ l.map CartJs.JsCartItem.productId) :
    CartJs.jsUpsert pid qty l
      = l.map (fun e => if e.productId = pid then { productId := pid, quantity := qty }
          else e) := by
  induction l with
  | nil => cases hm
  | cons e rest ih =>
    rw [List.map_cons, List.nodup_cons] at hnd
    obtain ⟨hhead, htail⟩ := hnd
    by_cases he : e.productId = pid
    · have hrest : ∀ e' ∈ rest, e'.productId ≠ pid := by
        intro e' he' heq
        exact hhead (by rw [he, ← heq]; exact List.mem_map_of_mem CartJs.JsCartItem.productId he')
      simp [CartJs.jsUpsert, he, jsMap_replace_id pid qty rest hrest]
    · have hm' : pid ∈ rest.map CartJs.JsCartItem.productId := by
        rcases List.mem_cons.mp hm with h | h
        · exact absurd h.symm he
        · exact h
      simp [CartJs.jsUpsert, he, ih htail hm']

/-- C8 (amended): adding an item whose productId already appears replaces
that entry's quantity with the request's quantity and its price and name
with the values fetched from the product service (not those of the
request), leaving all other entries unchanged; a fresh productId is
appended; every reachable cart keeps at most one entry per productId.
The file-backed JS variant replaces the stored quantity likewise. -/
theorem addToCart_upsert_semantics (uid : String) (reqItem : CartItem) (product : Product)
    (st : CartsStore) (cart : Cart) (hcart : lookupCart uid st = some cart) :
    (addToCart uid (some reqItem) (.ok product) st
       = (.ok { cart with items := (upsertItem
                  { reqItem with price := product.price, name := product.name } cart.items) },
          setCart uid
            { cart with items := (upsertItem
                { reqItem with price := product.price, name := product.name } cart.items) } st))
    ∧ (reqItem.productId ∉ itemKeys cart.items →
         upsertItem { reqItem with price := product.price, name := product.name } cart.items
           = cart.items ++ [{ reqItem with price := product.price, name := product.name }])
    ∧ ((itemKeys cart.items).Nodup → reqItem.productId ∈ itemKeys cart.items →
         upsertItem { reqItem with price := product.price, name := product.name } cart.items
           = cart.items.map (fun e => if e.productId = reqItem.productId then
               ({ e with quantity := reqItem.quantity, price := product.price, name := product.name })
             else e))
    ∧ (∀ st', Reachable st' → ∀ p ∈ st', (itemKeys p.2.items).Nodup)
    ∧ (∀ (pid : String) (qty : Int) (l : List CartJs.JsCartItem),
         (l.map CartJs.JsCartItem.productId).Nodup → pid ∈ l.map CartJs.JsCartItem.productId →
         CartJs.jsUpsert pid qty l
           = l.map (fun e => if e.productId = pid then { productId := pid, quantity := qty }
               else e)) := by
  refine ⟨?_, ?_, ?_, reachable_itemKeys_nodup, ?_⟩
  · simp [addToCart, hcart]
  · exact upsertItem_not_mem
      { reqItem with price := product.price, name := product.name } cart.items
  · intro hnd hm
    exact upsertItem_mem_nodup
      { reqItem with price := product.price, name := product.name } cart.items hnd hm
  · intro pid qty l hnd hm
    exact jsUpsert_mem_nodup pid qty l hnd hm

/-- Witness for C8 (amended) at a concrete one-item cart. -/
theorem addToCart_upsert_semantics_witness :
    (addToCart "u" (some { productId := "1", quantity := 3, price := 7, name := "n" })
        (.ok { id := "1", name := "Laptop", price := 10, description := "d" })
        [("u", { userId := "u",
                 items := [{ productId := "1", quantity := 1, price := 5, name := "old" }] })]).1
      = .ok { userId := "u",
              items := [{ productId := "1", quantity := 3, price := 10, name := "Laptop" }] } := by
  have h := (addToCart_upsert_semantics "u"
      { productId := "1", quantity := 3, price := 7, name := "n" }
      { id := "1", name := "Laptop", price := 10, description := "d" }
      [("u", { userId := "u",
               items := [{ productId := "1", quantity := 1, price := 5, name := "old" }] })]
      { userId := "u", items := [{ productId := "1", quantity := 1, price := 5, name := "old" }] }
      rfl).1
  rw [h]
  rfl

end CartService

namespace ProductGo

/-- C4: no product-service operation — Go health check, get-all, get-by-id,
get-by-category, nor any JS handler over the file database — adds,
removes, or mutates a product record: the collection passes through every
handler unchanged. -/
theorem products_read_only (ps : List Product) (pid cat : String)
    (db : ProductJs.DB) (jsPid : String) (avail : Bool) :
    (healthCheck ps).2 = ps
    ∧ (getProducts ps).2 = ps
    ∧ (getProduct pid ps).2 = ps
    ∧ (getProductsByCategory cat ps).2 = ps
    ∧ (ProductJs.getAllProducts db).2 = db
    ∧ (ProductJs.getProductById jsPid db).2 = db
    ∧ (ProductJs.checkAvailability jsPid avail db).2 = db
    ∧ (ProductJs.verifyProduct jsPid db).2 = db := by
  refine ⟨rfl, rfl, ?_, ?_, rfl, ?_, ?_, ?_⟩
  · unfold getProduct
    cases ps.find? (fun p => p.id = pid) <;> rfl
  · unfold getProductsByCategory
    by_cases h : (ps.filter (fun p => p.category = cat)).isEmpty <;> simp [h]
  · unfold ProductJs.getProductById
    cases db.products.find? (fun p => p.id = jsPid) <;> rfl
  · unfold ProductJs.checkAvailability
    cases db.products.find? (fun p => p.id = jsPid) <;> rfl
  · unfold ProductJs.verifyProduct
    cases db.products.find? (fun p => p.id = jsPid) <;> rfl

/-- With distinct ids, the first-match scan returns exactly the stored
product carrying the id. -/
theorem find?_id_of_mem (ps : List Product) (p : Product) (pid : String)
    (hnd : (ps.map Product.id).Nodup) (hp : p ∈ ps) (hid : p.id = pid) :
    ps.find? (fun q => q.id = pid) = some p := by
  induction ps with
  | nil => cases hp
  | cons a rest ih =>
    rw [List.map_cons, List.nodup_cons] at hnd
    obtain ⟨hhead, htail⟩ := hnd
    rcases List.mem_cons.mp hp with h | h
    · subst h
      simp [List.find?, hid]
    · have ha : ¬ a.id = pid := by
        intro heq
        exact hhead (by rw [heq, ← hid]; exact List.mem_map_of_mem Product.id h)
      simp [List.find?, ha, ih htail h]

/-- C7: the static product ids are pairwise distinct; `getProduct`
returns the unique product whose ID equals the requested id when one
exists and 404 "Product not found" otherwise; `getProductsByCategory`
returns exactly the products of the category and 404 when that set is
empty. -/
theorem product_lookup_spec (pid cat : String) :
    ((products.map Product.id).Nodup)
    ∧ (∀ p ∈ products, p.id = pid → getProduct pid products = (.ok p, products))
    ∧ ((∀ p ∈ products, p.id ≠ pid) →
         getProduct pid products = (.error 404 "Product not found", products))
    ∧ ((products.filter (fun p => p.category = cat)).isEmpty = false →
         getProductsByCategory cat products
           = (.ok (products.filter (fun p => p.category = cat)), products))
    ∧ ((products.filter (fun p => p.category = cat)).isEmpty = true →
         getProductsByCategory cat products
           = (.error 404 "No products found in this category", products)) := by
  refine ⟨by decide, ?_, ?_, ?_, ?_⟩
  · intro p hp hid
    simp [getProduct, find?_id_of_mem products p pid (by decide) hp hid]
  · intro h
    have hfind : products.find? (fun q => q.id = pid) = none := by
      rw [List.find?_eq_none]
      intro p hp
      simpa using h p hp
    simp [getProduct, hfind]
  · intro h
    simp [getProductsByCategory, h]
  · intro h
    simp [getProductsByCategory, h]

/-- Witness for C7: looking up id "1" yields the laptop, id "9" is a 404,
category "Electronics" yields all three products, category "Books" a 404. -/
theorem product_lookup_spec_witness :
    getProduct "1" products
      = (.ok { id := "1", name := "Gaming Laptop",
               description := "High-performance gaming laptop",
               price := 1299.99, category := "Electronics" }, products)
    ∧ getProduct "9" products = (.error 404 "Product not found", products)
    ∧ getProductsByCategory "Electronics" products
      = (.ok (products.filter (fun p => p.category = "Electronics")), products)
    ∧ getProductsByCategory "Books" products
      = (.error 404 "No products found in this category", products) := by
  refine ⟨?_, ?_, ?_, ?_⟩
  · exact (product_lookup_spec "1" "Electronics").2.1
      { id := "1", name := "Gaming Laptop", description := "High-performance gaming laptop",
        price := 1299.99, category := "Electronics" } (by simp [products]) rfl
  · exact (product_lookup_spec "9" "Electronics").2.2.1 (by decide)
  · exact (product_lookup_spec "1" "Electronics").2.2.2.1 (by decide)
  · exact (product_lookup_spec "1" "Books").2.2.2.2 (by decide)

end ProductGo

namespace AuthService

/-- C6: `handleLogin` creates a session (a 200 response carrying a token
and the fresh session id) exactly when the request carries username
"admin" and password "admin"; any other credentials get 401 and no
session, and an undecodable body gets 400. -/
theorem login_session_iff_admin (body : Option AuthService.LoginRequest)
    (sid : String) (now : Nat) :
    (∀ req, body = some req →
       ((∃ resp, handleLogin body sid now = .ok resp)
          ↔ (req.username = "admin" ∧ req.password = "admin")))
    ∧ (∀ req, body = some req → ¬(req.username = "admin" ∧ req.password = "admin") →
         handleLogin body sid now = .error 401 "Invalid credentials")
    ∧ (body = none → handleLogin body sid now = .error 400 "Invalid request body")
    ∧ (∀ req, body = some req → req.username = "admin" → req.password = "admin" →
         handleLogin body sid now
           = .ok { token := SharedJwt.GenerateToken "admin" sid now,
                   sessionId := sid, username := "admin" }) := by
  refine ⟨?_, ?_, ?_, ?_⟩
  · intro req hb
    subst hb
    constructor
    · rintro ⟨resp, hresp⟩
      by_cases h : req.username = "admin" ∧ req.password = "admin"
      · exact h
      · simp [handleLogin, h] at hresp
    · intro h
      refine ⟨{ token := SharedJwt.GenerateToken req.username sid now,
                sessionId := sid, username := req.username }, ?_⟩
      simp [handleLogin, h]
  · intro req hb h
    subst hb
    simp [handleLogin, h]
  · intro hb
    subst hb
    rfl
  · intro req hb hu hp
    subst hb
    simp [handleLogin, hu, hp]

/-- Witness for C6: admin/admin logs in, admin/wrong is rejected, a bad
body is a 400. -/
theorem login_session_iff_admin_witness :
    handleLogin (some { username := "admin", password := "admin" }) "s1" 0
      = .ok { token := SharedJwt.GenerateToken "admin" "s1" 0,
              sessionId := "s1", username := "admin" }
    ∧ handleLogin (some { username := "admin", password := "wrong" }) "s1" 0
      = .error 401 "Invalid credentials"
    ∧ handleLogin none "s1" 0 = .error 400 "Invalid request body" :=
  ⟨(login_session_iff_admin (some { username := "admin", password := "admin" }) "s1" 0).2.2.2
      { username := "admin", password := "admin" } rfl rfl rfl,
   (login_session_iff_admin (some { username := "admin", password := "wrong" }) "s1" 0).2.1
      { username := "admin", password := "wrong" } rfl (by simp),
   (login_session_iff_admin none "s1" 0).2.2.1 rfl⟩

end AuthService

namespace SharedJwt

/-- C10: validating a freshly generated token within its 24-hour expiry
succeeds and returns claims whose Username is the username, whose
SessionID is the session id, and whose UserID also equals the session id
— the UserID claim is never a distinct user identifier. -/
theorem token_roundtrip (username sessionID : String) (issueTime checkTime : Nat)
    (h : checkTime < issueTime + 24 * 60 * 60) :
    ValidateToken (GenerateToken username sessionID issueTime) checkTime
      = some { userID := sessionID, username := username, sessionID := sessionID,
               expiresAt := issueTime + 24 * 60 * 60, issuedAt := issueTime }
    ∧ ∀ c, ValidateToken (GenerateToken username sessionID issueTime) checkTime = some c →
        c.username = username ∧ c.sessionID = sessionID ∧ c.userID = sessionID
          ∧ c.userID = c.sessionID := by
  have hval : ValidateToken (GenerateToken username sessionID issueTime) checkTime
      = some { userID := sessionID, username := username, sessionID := sessionID,
               expiresAt := issueTime + 24 * 60 * 60, issuedAt := issueTime } := by
    simp [ValidateToken, GenerateToken, hs256Sign, h]
  refine ⟨hval, ?_⟩
  intro c hc
  rw [hval] at hc
  cases hc
  exact ⟨rfl, rfl, rfl, rfl⟩

/-- Witness for C10 at concrete strings and times. -/
theorem token_roundtrip_witness :
    ValidateToken (GenerateToken "admin" "sess-1" 100) 200
      = some { userID := "sess-1", username := "admin", sessionID := "sess-1",
               expiresAt := 100 + 24 * 60 * 60, issuedAt := 100 }
    ∧ ∀ c, ValidateToken (GenerateToken "admin" "sess-1" 100) 200 = some c →
        c.username = "admin" ∧ c.sessionID = "sess-1" ∧ c.userID = "sess-1"
          ∧ c.userID = c.sessionID :=
  token_roundtrip "admin" "sess-1" 100 200 (by norm_num)

end SharedJwt

namespace Locking

/-- C5 counterexample: the order-service handlers access the `orders` map
with no mutex — `getOrders` is such an access — so it is false that every
handler access to a shared in-memory store is mutex-guarded. -/
theorem mutex_guarding_counterexample :
    ({ service := "order-service", handler := "getOrders", store := .orders,
       mutexGuarded := false } : StoreAccess) ∈ storeAccesses
    ∧ storeAccesses.all (fun a => a.mutexGuarded) = false := by
  decide

/-- C5 (amended): every cart-service access to the carts map runs under
the mutex `mu`, while every order-service access to the orders map runs
under no mutex at all. -/
theorem mutex_guarding_amended :
    ((storeAccesses.filter (fun a => a.store == Store.carts)).all
        (fun a => a.mutexGuarded) = true)
    ∧ ((storeAccesses.filter (fun a => a.store == Store.orders)).all
        (fun a => !a.mutexGuarded) = true) := by
  decide

end Locking
